import Mathlib

/-!
# Verification of the nuxt-starter state-management core

Shallow embedding of the storefront demo's two message-driven stores
(shopping cart and product catalog) and their derived-value utilities,
translated from the TypeScript source:

* `layers/cart/app/stores/cart/cartModel.ts`, `cartUpdate.ts`, `cartEffects.ts`
* `layers/cart/app/utils/calculations.ts`
* `layers/cart/app/schemas/cart.ts`
* `layers/shared/app/utils/storage.ts`
* products store model / `productsUpdate.ts`
* products layer `utils/filters.ts` (`sortProducts`)

Modelling conventions:

* JavaScript numbers are modelled as exact integers (`ℤ`) for prices,
  quantities and stock — the code documents them as integer minor currency
  units ("price in cents") — and as exact rationals (`ℚ`) where fractional
  values occur (`TAX_RATE = 0.1`, ratings).  `Math.round` is modelled by its
  ECMAScript definition: the closest integer, ties rounding toward +∞,
  i.e. `⌊x + 1/2⌋`.
* Thrown-and-caught JavaScript exceptions are modelled with `Option`:
  `JSON.parse` becomes a function `String → Option β` whose `none` result
  stands for a thrown `SyntaxError`; a total Lean function returning a value
  models "no exception escapes to the caller".
* `localStorage` is an association list of string entries plus an
  availability flag (`isLocalStorageAvailable`).
* `Array.prototype.sort` (specified by ECMAScript to be a stable sort
  consistent with the comparator) is modelled by `List.insertionSort` with
  the relation "comparator result ≤ 0", which is a stable sort for the same
  preorder.
-/

/-- `Product` (products layer schema / `server/types`): identifier, name,
description, price in minor units, category, image reference, stock and an
optional rating. -/
structure Product where
  id : String
  name : String
  description : String
  price : ℤ
  category : String
  image : String
  stock : ℤ
  rating : Option ℚ
deriving DecidableEq

/-- `CartItem` (`layers/cart/app/schemas/cart.ts`): a product value plus a
quantity. -/
structure CartItem where
  product : Product
  quantity : ℤ
deriving DecidableEq

/-- `CartModel` (`cartModel.ts`): the ordered item sequence. -/
structure CartModel where
  items : List CartItem
deriving DecidableEq

/-- `CartMsg` (`cartModel.ts`): the closed set of cart messages. -/
inductive CartMsg where
  | addItem (product : Product)
  | removeItem (productId : String)
  | updateQuantity (productId : String) (quantity : ℤ)
  | incrementItem (productId : String)
  | decrementItem (productId : String)
  | clearCart
  | hydrateFromStorage (items : List CartItem)
deriving DecidableEq

namespace Cart

/-- `initialModel` (`cartModel.ts`): the empty cart. -/
def initialModel : CartModel := { items := [] }

/-- `addItemToCart` (`cartUpdate.ts`): increment the quantity of an existing
item with the same product id, otherwise append a fresh item of quantity 1. -/
def addItemToCart (model : CartModel) (product : Product) : CartModel :=
  match model.items.find? (fun item => item.product.id == product.id) with
  | some _ =>
      { model with
          items := model.items.map (fun item =>
            if item.product.id = product.id then
              { item with quantity := item.quantity + 1 }
            else item) }
  | none =>
      { model with items := model.items ++ [{ product := product, quantity := 1 }] }

/-- `updateItemQuantity` (`cartUpdate.ts`): a non-positive quantity removes the
item, a positive quantity sets it absolutely. -/
def updateItemQuantity (model : CartModel) (productId : String) (quantity : ℤ) :
    CartModel :=
  if quantity ≤ 0 then
    { model with items := model.items.filter (fun item => item.product.id != productId) }
  else
    { model with
        items := model.items.map (fun item =>
          if item.product.id = productId then { item with quantity := quantity }
          else item) }

/-- `update` (`cartUpdate.ts`): the pure cart reducer. -/
def update (model : CartModel) (msg : CartMsg) : CartModel :=
  match msg with
  | .addItem product => addItemToCart model product
  | .removeItem productId =>
      { model with items := model.items.filter (fun item => item.product.id != productId) }
  | .updateQuantity productId quantity => updateItemQuantity model productId quantity
  | .incrementItem productId =>
      match model.items.find? (fun i => i.product.id == productId) with
      | none => model
      | some item => updateItemQuantity model productId (item.quantity + 1)
  | .decrementItem productId =>
      match model.items.find? (fun i => i.product.id == productId) with
      | none => model
      | some item => updateItemQuantity model productId (item.quantity - 1)
  | .clearCart => { model with items := [] }
  | .hydrateFromStorage items => { model with items := items }

/-- `TAX_RATE` (`calculations.ts`): 0.1, modelled exactly. -/
def TAX_RATE : ℚ := 1 / 10

/-- `INITIAL_SUM` (`calculations.ts`). -/
def INITIAL_SUM : ℤ := 0

/-- ECMAScript `Math.round`: closest integer, ties toward +∞. -/
def jsRound (x : ℚ) : ℤ := ⌊x + 1 / 2⌋

/-- `calculateItemSubtotal` (`calculations.ts`). -/
def calculateItemSubtotal (price quantity : ℤ) : ℤ := price * quantity

/-- `calculateSubtotal` (`calculations.ts`): reduce over the items. -/
def calculateSubtotal (items : List CartItem) : ℤ :=
  items.foldl
    (fun sum item => sum + calculateItemSubtotal item.product.price item.quantity)
    INITIAL_SUM

/-- `calculateTax` (`calculations.ts`): `Math.round(subtotal * TAX_RATE)`. -/
def calculateTax (subtotal : ℤ) : ℤ := jsRound ((subtotal : ℚ) * TAX_RATE)

/-- `calculateTotal` (`calculations.ts`). -/
def calculateTotal (subtotal tax : ℤ) : ℤ := subtotal + tax

/-- `calculateItemCount` (`calculations.ts`): reduce over the quantities. -/
def calculateItemCount (items : List CartItem) : ℤ :=
  items.foldl (fun sum item => sum + item.quantity) INITIAL_SUM

end Cart

/-- Modelled from the spec: "round-half-up to the nearest integer
minor-unit", used to compare against the code's `calculateTax`. -/
def roundHalfUp (q : ℚ) : ℤ := ⌊q + 1 / 2⌋

/-- The two mock products of the repository's test fixtures
(`cartUpdate.test.ts`): `productA` at 1999 minor units. -/
def productA : Product :=
  { id := "1", name := "Product 1", description := "Description 1", price := 1999,
    category := "electronics", image := "https://example.com/image1.jpg",
    stock := 10, rating := some (9 / 2) }

/-- Second fixture product, 2999 minor units. -/
def productB : Product :=
  { id := "2", name := "Product 2", description := "Description 2", price := 2999,
    category := "clothing", image := "https://example.com/image2.jpg",
    stock := 5, rating := some 4 }

/-- Evaluation rule for `calculateTax` at concrete arguments. -/
theorem calculateTax_eval (s n : ℤ)
    (h1 : (n : ℚ) ≤ (s : ℚ) * Cart.TAX_RATE + 1 / 2)
    (h2 : (s : ℚ) * Cart.TAX_RATE + 1 / 2 < n + 1) :
    Cart.calculateTax s = n := by
  unfold Cart.calculateTax Cart.jsRound
  exact Int.floor_eq_iff.mpr ⟨h1, h2⟩

/-- C4: `calculateTax` agrees exactly with spec round-half-up of
`subtotal * 0.1` on non-negative integers, takes the documented values at
6997 and 665, and is monotonic non-decreasing. -/
theorem calculateTax_round_half_up_and_monotone :
    (∀ s : ℤ, 0 ≤ s → Cart.calculateTax s = roundHalfUp ((s : ℚ) * (1 / 10))) ∧
    Cart.calculateTax 6997 = 700 ∧ Cart.calculateTax 665 = 67 ∧
    (∀ s t : ℤ, 0 ≤ s → s ≤ t → Cart.calculateTax s ≤ Cart.calculateTax t) := by
  refine ⟨fun s _ => rfl,
    calculateTax_eval 6997 700 (by norm_num [Cart.TAX_RATE]) (by norm_num [Cart.TAX_RATE]),
    calculateTax_eval 665 67 (by norm_num [Cart.TAX_RATE]) (by norm_num [Cart.TAX_RATE]),
    fun s t _ hst => ?_⟩
  apply Int.floor_le_floor
  have h : (s : ℚ) ≤ (t : ℚ) := by exact_mod_cast hst
  have h10 : (0 : ℚ) < Cart.TAX_RATE := by norm_num [Cart.TAX_RATE]
  nlinarith

/-- C4 witness: the theorem applied at the concrete subtotals 6997 and 665. -/
theorem calculateTax_round_half_up_and_monotone_witness :
    Cart.calculateTax 6997 = roundHalfUp ((6997 : ℚ) * (1 / 10)) ∧
    Cart.calculateTax 665 ≤ Cart.calculateTax 6997 :=
  ⟨calculateTax_round_half_up_and_monotone.1 6997 (by norm_num),
   calculateTax_round_half_up_and_monotone.2.2.2 665 6997 (by norm_num) (by norm_num)⟩

/-- C6: the concrete two-item cart (productA ×2 at 1999, productB ×1 at 2999)
has subtotal 6997, tax 700, total 7697 and item count 3. -/
theorem cart_scenario_derived_values :
    Cart.calculateSubtotal
        [{ product := productA, quantity := 2 }, { product := productB, quantity := 1 }]
      = 6997 ∧
    Cart.calculateTax 6997 = 700 ∧
    Cart.calculateTotal 6997 700 = 7697 ∧
    Cart.calculateItemCount
        [{ product := productA, quantity := 2 }, { product := productB, quantity := 1 }]
      = 3 := by
  refine ⟨by decide,
    calculateTax_eval 6997 700 (by norm_num [Cart.TAX_RATE]) (by norm_num [Cart.TAX_RATE]),
    by decide, by decide⟩

/-- `PriceRange` for `ProductFilter.priceRange`. -/
structure PriceRange where
  min : ℤ
  max : ℤ
deriving DecidableEq

/-- `ProductFilter` (products layer `schemas/filters`): every field optional
(`none` models an absent / `undefined` field). -/
structure ProductFilter where
  search : Option String
  category : Option String
  priceRange : Option PriceRange
  minRating : Option ℚ
  inStock : Option Bool
deriving DecidableEq

/-- `ProductSort` (products layer `schemas/filters`): the five sort keys. -/
inductive ProductSort where
  | nameAsc
  | nameDesc
  | priceAsc
  | priceDesc
  | ratingDesc
deriving DecidableEq

/-- `ProductsModel` (products store model). -/
structure ProductsModel where
  products : List Product
  loading : Bool
  error : Option String
  currentFilter : ProductFilter
  currentSort : ProductSort
deriving DecidableEq

/-- `ProductsMsg` (products store model): the closed set of messages. -/
inductive ProductsMsg where
  | setFilter (filter : ProductFilter)
  | setSort (sort : ProductSort)
  | resetFilter
  | fetchRequest
  | fetchSuccess (products : List Product)
  | fetchFailure (error : String)
deriving DecidableEq

namespace Products

/-- `initialModel` (products store model): empty catalog, not loading, no
error, filter `{search: undefined, category: 'all', inStock: false}`, sort
`name-asc`. -/
def initialModel : ProductsModel :=
  { products := []
    loading := false
    error := none
    currentFilter :=
      { search := none, category := some "all", priceRange := none,
        minRating := none, inStock := some false }
    currentSort := ProductSort.nameAsc }

/-- `update` (`productsUpdate.ts`): the pure products reducer. -/
def update (model : ProductsModel) (msg : ProductsMsg) : ProductsModel :=
  match msg with
  | .setFilter filter => { model with currentFilter := filter }
  | .setSort sort => { model with currentSort := sort }
  | .resetFilter =>
      { model with
          currentFilter := initialModel.currentFilter
          currentSort := initialModel.currentSort }
  | .fetchRequest => { model with loading := true, error := none }
  | .fetchSuccess products =>
      { model with loading := false, products := products, error := none }
  | .fetchFailure error => { model with loading := false, error := some error }

end Products

/-- C7: `ResetFilter` resets filter and sort to the initial defaults, leaves
`products`, `loading`, `error` untouched, and is idempotent. -/
theorem resetFilter_resets_and_is_idempotent (m : ProductsModel) :
    (Products.update m ProductsMsg.resetFilter).currentFilter
        = { search := none, category := some "all", priceRange := none,
            minRating := none, inStock := some false } ∧
    (Products.update m ProductsMsg.resetFilter).currentSort = ProductSort.nameAsc ∧
    (Products.update m ProductsMsg.resetFilter).products = m.products ∧
    (Products.update m ProductsMsg.resetFilter).loading = m.loading ∧
    (Products.update m ProductsMsg.resetFilter).error = m.error ∧
    Products.update (Products.update m ProductsMsg.resetFilter) ProductsMsg.resetFilter
      = Products.update m ProductsMsg.resetFilter := by
  cases m
  refine ⟨rfl, rfl, rfl, rfl, rfl, rfl⟩

/-- The `{loading, error}` invariant of the products store. -/
def loadingErrorInv (m : ProductsModel) : Prop :=
  m.loading = true → m.error = none

/-- One reducer step preserves the loading/error invariant. -/
theorem update_preserves_loadingErrorInv (m : ProductsModel) (msg : ProductsMsg)
    (h : loadingErrorInv m) : loadingErrorInv (Products.update m msg) := by
  cases msg <;> simp_all [loadingErrorInv, Products.update]

/-- Any message sequence from any invariant-satisfying model stays in the
invariant. -/
theorem foldl_update_loadingErrorInv (msgs : List ProductsMsg) (m : ProductsModel)
    (h : loadingErrorInv m) :
    loadingErrorInv (msgs.foldl Products.update m) := by
  induction msgs generalizing m with
  | nil => exact h
  | cons msg rest ih => exact ih _ (update_preserves_loadingErrorInv m msg h)

/-- C8: every model reachable from the initial products model satisfies
`loading = true → error = null`, and the three fetch messages have exactly the
documented effect on `{loading, error}`. -/
theorem products_loading_error_state_machine :
    (∀ msgs : List ProductsMsg,
      (msgs.foldl Products.update Products.initialModel).loading = true →
      (msgs.foldl Products.update Products.initialModel).error = none) ∧
    (∀ m : ProductsModel,
      (Products.update m ProductsMsg.fetchRequest).loading = true ∧
      (Products.update m ProductsMsg.fetchRequest).error = none) ∧
    (∀ (m : ProductsModel) (ps : List Product),
      (Products.update m (ProductsMsg.fetchSuccess ps)).loading = false ∧
      (Products.update m (ProductsMsg.fetchSuccess ps)).error = none) ∧
    (∀ (m : ProductsModel) (e : String),
      (Products.update m (ProductsMsg.fetchFailure e)).loading = false ∧
      (Products.update m (ProductsMsg.fetchFailure e)).error = some e) := by
  refine ⟨fun msgs => ?_, fun m => ⟨rfl, rfl⟩, fun m ps => ⟨rfl, rfl⟩,
    fun m e => ⟨rfl, rfl⟩⟩
  exact foldl_update_loadingErrorInv msgs Products.initialModel (fun _ => rfl)

/-- C8 witness: after a lone `FetchRequest` from the initial model the store
is loading with `error = null`. -/
theorem products_loading_error_state_machine_witness :
    ([ProductsMsg.fetchRequest].foldl Products.update Products.initialModel).error
      = none :=
  products_loading_error_state_machine.1 [ProductsMsg.fetchRequest] rfl

/-- The product identifiers of a cart item list, in order. -/
def itemIds (items : List CartItem) : List String :=
  items.map (fun item => item.product.id)

/-- A quantity-only rewrite of the items leaves the stored products (hence the
identifier sequence) unchanged. -/
theorem itemIds_map (l : List CartItem) (f : CartItem → CartItem)
    (hf : ∀ item, (f item).product = item.product) :
    itemIds (l.map f) = itemIds l := by
  induction l with
  | nil => rfl
  | cons a l ih => simp [itemIds, hf a] at ih ⊢; exact ih

/-- Setting the quantity of the items matching one id keeps the id sequence. -/
theorem itemIds_map_set (l : List CartItem) (pid : String) (q : ℤ) :
    itemIds (l.map (fun item =>
      if item.product.id = pid then { item with quantity := q } else item))
      = itemIds l := by
  apply itemIds_map
  intro item
  by_cases h : item.product.id = pid <;> simp [h]

/-- Incrementing the quantity of the items matching one id keeps the id
sequence. -/
theorem itemIds_map_incr (l : List CartItem) (pid : String) :
    itemIds (l.map (fun item =>
      if item.product.id = pid then { item with quantity := item.quantity + 1 }
      else item)) = itemIds l := by
  apply itemIds_map
  intro item
  by_cases h : item.product.id = pid <;> simp [h]

/-- Filtering the items only shrinks the identifier sequence. -/
theorem itemIds_filter_sublist (l : List CartItem) (q : CartItem → Bool) :
    List.Sublist (itemIds (l.filter q)) (itemIds l) :=
  (List.filter_sublist l).map _

/-- `updateItemQuantity` preserves distinctness of product ids. -/
theorem nodup_updateItemQuantity (model : CartModel) (pid : String) (q : ℤ)
    (hm : (itemIds model.items).Nodup) :
    (itemIds (Cart.updateItemQuantity model pid q).items).Nodup := by
  unfold Cart.updateItemQuantity
  by_cases hq : q ≤ 0
  · simp only [if_pos hq]
    exact (itemIds_filter_sublist _ _).nodup hm
  · simp only [if_neg hq]
    rw [itemIds_map_set]
    exact hm

/-- `addItemToCart` preserves distinctness of product ids. -/
theorem nodup_addItemToCart (model : CartModel) (p : Product)
    (hm : (itemIds model.items).Nodup) :
    (itemIds (Cart.addItemToCart model p).items).Nodup := by
  unfold Cart.addItemToCart
  cases hfind : model.items.find? (fun item => item.product.id == p.id) with
  | some it =>
      rw [itemIds_map_incr]
      exact hm
  | none =>
      have habs : ∀ item ∈ model.items, item.product.id ≠ p.id := by
        intro item hitem
        have h := List.find?_eq_none.mp hfind item hitem
        simpa using h
      have hnotmem : p.id ∉ itemIds model.items := by
        intro hmem
        rcases List.mem_map.mp hmem with ⟨item, hitem, hid⟩
        exact habs item hitem hid
      have hids : itemIds (model.items ++ [{ product := p, quantity := 1 }])
          = itemIds model.items ++ [p.id] := by
        simp [itemIds]
      rw [hids]
      exact ((List.perm_append_singleton _ _).nodup_iff).mpr
        (List.nodup_cons.mpr ⟨hnotmem, hm⟩)

/-- A cart message puts no repeated product id into a hydration payload. -/
def msgHydrateNodup : CartMsg → Prop
  | .hydrateFromStorage items => (itemIds items).Nodup
  | _ => True

/-- One cart reducer step preserves distinctness of product ids, provided a
hydration payload is itself duplicate-free. -/
theorem update_preserves_nodup (model : CartModel) (msg : CartMsg)
    (hm : (itemIds model.items).Nodup) (hmsg : msgHydrateNodup msg) :
    (itemIds (Cart.update model msg).items).Nodup := by
  cases msg with
  | addItem p => exact nodup_addItemToCart model p hm
  | removeItem pid => exact (itemIds_filter_sublist _ _).nodup hm
  | updateQuantity pid q => exact nodup_updateItemQuantity model pid q hm
  | incrementItem pid =>
      rw [Cart.update]
      cases model.items.find? (fun i => i.product.id == pid) with
      | none => exact hm
      | some it => exact nodup_updateItemQuantity model pid (it.quantity + 1) hm
  | decrementItem pid =>
      rw [Cart.update]
      cases model.items.find? (fun i => i.product.id == pid) with
      | none => exact hm
      | some it => exact nodup_updateItemQuantity model pid (it.quantity - 1) hm
  | clearCart => simp [Cart.update, itemIds]
  | hydrateFromStorage items => simpa [Cart.update, msgHydrateNodup] using hmsg

/-- Message sequences whose hydration payloads are duplicate-free keep the
distinct-id invariant from any invariant-satisfying start. -/
theorem foldl_update_nodup (msgs : List CartMsg) (model : CartModel)
    (hm : (itemIds model.items).Nodup) (hmsgs : ∀ msg ∈ msgs, msgHydrateNodup msg) :
    (itemIds (msgs.foldl Cart.update model).items).Nodup := by
  induction msgs generalizing model with
  | nil => exact hm
  | cons msg rest ih =>
      exact ih _ (update_preserves_nodup model msg hm (hmsgs msg (by simp)))
        (fun m hmem => hmsgs m (by simp [hmem]))

/-- C2 counterexample: the claim quantifies over every message sequence, but a
`HYDRATE_FROM_STORAGE` payload is installed verbatim, so hydrating with two
items of the same product id yields a model with a repeated id. -/
theorem cart_nodup_counterexample :
    ([CartMsg.hydrateFromStorage
        [{ product := productA, quantity := 1 }, { product := productA, quantity := 2 }]].foldl
      Cart.update Cart.initialModel).items
      = [{ product := productA, quantity := 1 }, { product := productA, quantity := 2 }] ∧
    ¬ (itemIds ([CartMsg.hydrateFromStorage
        [{ product := productA, quantity := 1 }, { product := productA, quantity := 2 }]].foldl
      Cart.update Cart.initialModel).items).Nodup := by
  constructor
  · rfl
  · decide

/-- C2 (amended): starting from the empty cart, any message sequence whose
hydration payloads are themselves free of repeated product ids yields a model
in which no two items share a product id. -/
theorem cart_reachable_nodup_ids (msgs : List CartMsg)
    (hmsgs : ∀ msg ∈ msgs, msgHydrateNodup msg) :
    (itemIds (msgs.foldl Cart.update Cart.initialModel).items).Nodup :=
  foldl_update_nodup msgs Cart.initialModel (by simp [Cart.initialModel, itemIds]) hmsgs

/-- C2 witness: three adds (two of them the same product) keep the ids
distinct. -/
theorem cart_reachable_nodup_ids_witness :
    (itemIds ([CartMsg.addItem productA, CartMsg.addItem productB,
        CartMsg.addItem productA].foldl Cart.update Cart.initialModel).items).Nodup :=
  cart_reachable_nodup_ids
    [CartMsg.addItem productA, CartMsg.addItem productB, CartMsg.addItem productA]
    (by intro msg hmsg; cases msg <;> simp_all [msgHydrateNodup])

/-- All quantities in a cart item list are positive. -/
def allPos (items : List CartItem) : Prop :=
  ∀ item ∈ items, 0 < item.quantity

/-- A cart message puts no non-positive quantity into a hydration payload. -/
def msgQuantitiesPos : CartMsg → Prop
  | .hydrateFromStorage items => allPos items
  | _ => True

/-- `updateItemQuantity` preserves positivity of the quantities: a
non-positive requested quantity removes the item instead. -/
theorem allPos_updateItemQuantity (model : CartModel) (pid : String) (q : ℤ)
    (hm : allPos model.items) :
    allPos (Cart.updateItemQuantity model pid q).items := by
  unfold Cart.updateItemQuantity
  by_cases hq : q ≤ 0
  · simp only [if_pos hq]
    intro item hitem
    exact hm item (List.mem_of_mem_filter hitem)
  · simp only [if_neg hq]
    intro item hitem
    rcases List.mem_map.mp hitem with ⟨b, hb, hfb⟩
    by_cases h : b.product.id = pid
    · rw [if_pos h] at hfb
      subst hfb
      show (0 : ℤ) < q
      omega
    · rw [if_neg h] at hfb
      subst hfb
      exact hm b hb

/-- `addItemToCart` preserves positivity of the quantities. -/
theorem allPos_addItemToCart (model : CartModel) (p : Product)
    (hm : allPos model.items) :
    allPos (Cart.addItemToCart model p).items := by
  unfold Cart.addItemToCart
  cases model.items.find? (fun item => item.product.id == p.id) with
  | some it =>
      intro item hitem
      rcases List.mem_map.mp hitem with ⟨b, hb, hfb⟩
      by_cases h : b.product.id = p.id
      · rw [if_pos h] at hfb
        subst hfb
        have hb1 := hm b hb
        show (0 : ℤ) < b.quantity + 1
        omega
      · rw [if_neg h] at hfb
        subst hfb
        exact hm b hb
  | none =>
      intro item hitem
      rcases List.mem_append.mp hitem with h | h
      · exact hm item h
      · simp at h
        subst h
        show (0 : ℤ) < 1
        decide

/-- One cart reducer step preserves positivity of the quantities, provided a
hydration payload carries only positive quantities. -/
theorem update_preserves_allPos (model : CartModel) (msg : CartMsg)
    (hm : allPos model.items) (hmsg : msgQuantitiesPos msg) :
    allPos (Cart.update model msg).items := by
  cases msg with
  | addItem p => exact allPos_addItemToCart model p hm
  | removeItem pid =>
      intro item hitem
      exact hm item (List.mem_of_mem_filter hitem)
  | updateQuantity pid q => exact allPos_updateItemQuantity model pid q hm
  | incrementItem pid =>
      rw [Cart.update]
      cases model.items.find? (fun i => i.product.id == pid) with
      | none => exact hm
      | some it => exact allPos_updateItemQuantity model pid (it.quantity + 1) hm
  | decrementItem pid =>
      rw [Cart.update]
      cases model.items.find? (fun i => i.product.id == pid) with
      | none => exact hm
      | some it => exact allPos_updateItemQuantity model pid (it.quantity - 1) hm
  | clearCart =>
      intro item hitem
      simp [Cart.update] at hitem
  | hydrateFromStorage items => simpa [Cart.update, msgQuantitiesPos] using hmsg

/-- Message sequences whose hydration payloads carry only positive quantities
keep every quantity positive. -/
theorem foldl_update_allPos (msgs : List CartMsg) (model : CartModel)
    (hm : allPos model.items) (hmsgs : ∀ msg ∈ msgs, msgQuantitiesPos msg) :
    allPos ((msgs.foldl Cart.update model).items) := by
  induction msgs generalizing model with
  | nil => exact hm
  | cons msg rest ih =>
      exact ih _ (update_preserves_allPos model msg hm (hmsgs msg (by simp)))
        (fun m hmem => hmsgs m (by simp [hmem]))

/-- C3 counterexample: a `HYDRATE_FROM_STORAGE` payload is installed verbatim
by the reducer, so hydrating with a zero-quantity item puts an item with
quantity ≤ 0 into the model. -/
theorem cart_allPos_counterexample :
    ([CartMsg.hydrateFromStorage [{ product := productA, quantity := 0 }]].foldl
      Cart.update Cart.initialModel).items
      = [{ product := productA, quantity := 0 }] ∧
    ¬ allPos ([CartMsg.hydrateFromStorage
        [{ product := productA, quantity := 0 }]].foldl
      Cart.update Cart.initialModel).items := by
  constructor
  · rfl
  · intro h
    have h0 := h { product := productA, quantity := 0 }
      (by simp [Cart.update, Cart.initialModel])
    exact absurd h0 (by decide)

/-- C3 (amended): starting from the empty cart, any message sequence whose
hydration payloads carry only positive quantities yields a model with every
quantity positive; every reducer path that would produce a quantity ≤ 0
removes the item instead. -/
theorem cart_reachable_quantities_positive (msgs : List CartMsg)
    (hmsgs : ∀ msg ∈ msgs, msgQuantitiesPos msg) :
    allPos ((msgs.foldl Cart.update Cart.initialModel).items) :=
  foldl_update_allPos msgs Cart.initialModel
    (by intro item h; simp [Cart.initialModel] at h) hmsgs

/-- C3 witness: add twice, decrement three times — quantities stay positive
(the item is deleted rather than dropped to 0). -/
theorem cart_reachable_quantities_positive_witness :
    allPos (([CartMsg.addItem productA, CartMsg.addItem productA,
        CartMsg.decrementItem "1", CartMsg.decrementItem "1",
        CartMsg.decrementItem "1"].foldl Cart.update Cart.initialModel).items) :=
  cart_reachable_quantities_positive
    [CartMsg.addItem productA, CartMsg.addItem productA,
     CartMsg.decrementItem "1", CartMsg.decrementItem "1", CartMsg.decrementItem "1"]
    (by intro msg hmsg; cases msg <;> simp_all [msgQuantitiesPos])

/-- A quantity-only rewrite of the items leaves the stored product sequence
unchanged. -/
theorem products_map (l : List CartItem) (f : CartItem → CartItem)
    (hf : ∀ item, (f item).product = item.product) :
    (l.map f).map (fun item => item.product) = l.map (fun item => item.product) := by
  induction l with
  | nil => rfl
  | cons a l ih => simp [hf a] at ih ⊢; exact ih

/-- The increment map of `addItemToCart` fixes every item whose id differs. -/
theorem map_incr_id (l : List CartItem) (pid : String)
    (h : ∀ b ∈ l, b.product.id ≠ pid) :
    l.map (fun item =>
      if item.product.id = pid then { item with quantity := item.quantity + 1 }
      else item) = l := by
  induction l with
  | nil => rfl
  | cons x xs ih =>
      simp only [List.map_cons, if_neg (h x (by simp))]
      rw [ih (fun b hb => h b (by simp [hb]))]

/-- C5: `AddItem(p)` appends a fresh quantity-1 item at the end when `p`'s id
is absent, and otherwise increments that item's quantity by exactly 1 in
place, preserving the order and content of all other items. -/
theorem addItem_semantics :
    (∀ (model : CartModel) (p : Product),
      (∀ item ∈ model.items, item.product.id ≠ p.id) →
      (Cart.update model (CartMsg.addItem p)).items
        = model.items ++ [{ product := p, quantity := 1 }]) ∧
    (∀ (model : CartModel) (p : Product) (l₁ l₂ : List CartItem) (a : CartItem),
      model.items = l₁ ++ a :: l₂ → a.product.id = p.id →
      (∀ b ∈ l₁, b.product.id ≠ p.id) → (∀ b ∈ l₂, b.product.id ≠ p.id) →
      (Cart.update model (CartMsg.addItem p)).items
        = l₁ ++ { a with quantity := a.quantity + 1 } :: l₂) := by
  constructor
  · intro model p h
    have hfind : model.items.find? (fun item => item.product.id == p.id) = none :=
      List.find?_eq_none.mpr (fun x hx => by simpa using h x hx)
    show (Cart.addItemToCart model p).items = _
    unfold Cart.addItemToCart
    rw [hfind]
  · intro model p l₁ l₂ a hsplit ha hl₁ hl₂
    have h1 : l₁.find? (fun item => item.product.id == p.id) = none :=
      List.find?_eq_none.mpr (fun x hx => by simpa using hl₁ x hx)
    have hfind : model.items.find? (fun item => item.product.id == p.id) = some a := by
      rw [hsplit, List.find?_append, h1]
      simp [List.find?_cons_of_pos, ha]
    show (Cart.addItemToCart model p).items = _
    unfold Cart.addItemToCart
    rw [hfind]
    dsimp only
    rw [hsplit, List.map_append, List.map_cons, if_pos ha, map_incr_id l₁ p.id hl₁,
      map_incr_id l₂ p.id hl₂]

/-- C5 witness: re-adding increments in place; adding a new product appends
at the end with quantity 1. -/
theorem addItem_semantics_witness :
    (Cart.update { items := [{ product := productA, quantity := 2 }] }
        (CartMsg.addItem productA)).items
      = [{ product := productA, quantity := 3 }] ∧
    (Cart.update { items := [{ product := productA, quantity := 2 }] }
        (CartMsg.addItem productB)).items
      = [{ product := productA, quantity := 2 }, { product := productB, quantity := 1 }] := by
  constructor
  · have h := addItem_semantics.2 { items := [{ product := productA, quantity := 2 }] }
      productA [] [] { product := productA, quantity := 2 } rfl rfl (by simp) (by simp)
    simpa using h
  · have h := addItem_semantics.1 { items := [{ product := productA, quantity := 2 }] }
      productB (by intro item hitem; simp at hitem; subst hitem; decide)
    simpa using h

/-- C10: when the incoming product's id is already in the cart, the stored
product values are untouched — every field of the incoming product (price
included) is ignored. -/
theorem addItem_ignores_incoming_product (model : CartModel) (p : Product)
    (h : ∃ item ∈ model.items, item.product.id = p.id) :
    (Cart.update model (CartMsg.addItem p)).items.map (fun item => item.product)
      = model.items.map (fun item => item.product) := by
  show (Cart.addItemToCart model p).items.map _ = _
  unfold Cart.addItemToCart
  cases hfind : model.items.find? (fun item => item.product.id == p.id) with
  | none =>
      exfalso
      rcases h with ⟨it, hit, hid⟩
      have := List.find?_eq_none.mp hfind it hit
      simp [hid] at this
  | some it =>
      dsimp only
      apply products_map
      intro item
      by_cases hcase : item.product.id = p.id <;> simp [hcase]

/-- C10 witness: re-adding product 1 with its price changed to 2999 leaves the
stored product (price 1999) as it was. -/
theorem addItem_ignores_incoming_product_witness :
    (Cart.update { items := [{ product := productA, quantity := 1 }] }
        (CartMsg.addItem { productA with price := 2999 })).items.map
        (fun item => item.product)
      = [productA] := by
  have h := addItem_ignores_incoming_product
    { items := [{ product := productA, quantity := 1 }] }
    { productA with price := 2999 }
    ⟨{ product := productA, quantity := 1 }, by simp, rfl⟩
  simpa using h

/-- The browser `localStorage` seen by `layers/shared/app/utils/storage.ts`:
an availability flag (`isLocalStorageAvailable`) plus string entries. -/
structure LocalStorage where
  available : Bool
  entries : List (String × String)
deriving DecidableEq

namespace Storage

/-- `localStorage.getItem`: the stored string for a key, `none` when absent. -/
def getRaw (entries : List (String × String)) (key : String) : Option String :=
  (entries.find? (fun e => e.1 == key)).map (fun e => e.2)

/-- `removeItem` (`storage.ts`): delete the key's entry when storage is
available, otherwise a no-op. -/
def removeItem (store : LocalStorage) (key : String) : LocalStorage :=
  if store.available then
    { store with entries := store.entries.filter (fun e => e.1 != key) }
  else store

/-- `getValidatedItem` (`storage.ts`).  `parse` models the host `JSON.parse`
(`none` = it threw, caught by the surrounding try/catch); `validate` models
`schema.safeParse` (`none` = validation failed).  Returns the parsed value (or
`none`) together with the storage left behind: the entry is removed only on
the validation-failure branch. -/
def getValidatedItem {β α : Type} (parse : String → Option β)
    (validate : β → Option α) (store : LocalStorage) (key : String) :
    Option α × LocalStorage :=
  if store.available = false then (none, store)
  else
    match getRaw store.entries key with
    | none => (none, store)
    | some item =>
        if item = "" then (none, store)
        else
          match parse item with
          | none => (none, store)
          | some parsed =>
              match validate parsed with
              | some v => (some v, store)
              | none => (none, removeItem store key)

/-- `STORAGE_KEY` (`cartEffects.ts`). -/
def STORAGE_KEY : String := "shopping-cart"

/-- `loadCartFromStorage` (`cartEffects.ts`): read and validate the stored
blob; on success dispatch `HYDRATE_FROM_STORAGE` into the (initially empty)
cart, otherwise leave the cart empty.  Returns the resulting cart model and
the storage left behind. -/
def loadCartFromStorage {β : Type} (parse : String → Option β)
    (validate : β → Option (List CartItem)) (store : LocalStorage) :
    CartModel × LocalStorage :=
  match getValidatedItem parse validate store STORAGE_KEY with
  | (some items, store') =>
      (Cart.update Cart.initialModel (CartMsg.hydrateFromStorage items), store')
  | (none, store') => (Cart.initialModel, store')

end Storage

/-- A `JSON.parse` that throws on every input: models reading a blob that is
not valid JSON. -/
def parseAlwaysThrows : String → Option Unit := fun _ => none

/-- A vacuous schema for the counterexample (never reached, since parsing
already throws). -/
def validateAlwaysEmpty : Unit → Option (List CartItem) := fun _ => some []

/-- The concrete storage of the C1 counterexample: available, with a
non-JSON blob under the cart's key. -/
def corruptedStore : LocalStorage :=
  { available := true, entries := [(Storage.STORAGE_KEY, "corrupted-blob")] }

/-- C1 counterexample: loading a blob that is *not valid JSON* leaves the cart
empty and throws nothing, but does **not** clear the storage key — the
`removeItem` call sits only on the schema-validation-failure branch, and a
`JSON.parse` exception jumps straight to the catch block past it. -/
theorem load_corrupted_json_keeps_key :
    (Storage.loadCartFromStorage parseAlwaysThrows validateAlwaysEmpty
        corruptedStore).1 = Cart.initialModel ∧
    Storage.getRaw (Storage.loadCartFromStorage parseAlwaysThrows validateAlwaysEmpty
        corruptedStore).2.entries Storage.STORAGE_KEY = some "corrupted-blob" := by
  constructor
  · rfl
  · rfl

/-- C1 (amended): for every stored blob under the cart's key that is not valid
JSON, the load operation leaves the cart empty and lets no exception escape
(the operation is total and returns), but leaves the storage — including the
corrupted entry — exactly as it was; the key is removed only when the blob
parses as JSON and then fails schema validation. -/
theorem load_invalid_json_empty_cart_storage_untouched {β : Type}
    (parse : String → Option β) (validate : β → Option (List CartItem))
    (store : LocalStorage) (blob : String)
    (havail : store.available = true)
    (hblob : Storage.getRaw store.entries Storage.STORAGE_KEY = some blob)
    (hne : blob ≠ "") (hparse : parse blob = none) :
    Storage.loadCartFromStorage parse validate store = (Cart.initialModel, store) := by
  unfold Storage.loadCartFromStorage Storage.getValidatedItem
  rw [havail, hblob]
  simp [hne, hparse]

/-- C1 witness: the amended theorem applied at the concrete corrupted store. -/
theorem load_invalid_json_empty_cart_storage_untouched_witness :
    Storage.loadCartFromStorage parseAlwaysThrows validateAlwaysEmpty corruptedStore
      = (Cart.initialModel, corruptedStore) :=
  load_invalid_json_empty_cart_storage_untouched parseAlwaysThrows validateAlwaysEmpty
    corruptedStore "corrupted-blob" rfl rfl (by decide) rfl

/-- `DEFAULT_RATING` (`filters.ts`). -/
def DEFAULT_RATING : ℚ := 0

/-- `sortProducts` (`filters.ts`): copy the array and sort it with the
key-specific comparator.  ECMAScript `Array.prototype.sort` is a stable sort
consistent with the comparator, modelled by `List.insertionSort` with the
relation "comparator(a, b) ≤ 0".  `localeCompare` is the host's locale-aware
string comparison, kept as a parameter. -/
def sortProducts (localeCompare : String → String → ℤ) (products : List Product)
    (sort : ProductSort) : List Product :=
  match sort with
  | .nameAsc => products.insertionSort (fun a b => localeCompare a.name b.name ≤ 0)
  | .nameDesc => products.insertionSort (fun a b => localeCompare b.name a.name ≤ 0)
  | .priceAsc => products.insertionSort (fun a b => a.price - b.price ≤ 0)
  | .priceDesc => products.insertionSort (fun a b => b.price - a.price ≤ 0)
  | .ratingDesc => products.insertionSort (fun a b =>
      b.rating.getD DEFAULT_RATING - a.rating.getD DEFAULT_RATING ≤ 0)

/-- An insertion sort by a total transitive relation is sorted for any weaker
relation. -/
theorem sorted_insertionSort_of (r s : Product → Product → Prop)
    [DecidableRel r]
    (htot : ∀ a b, r a b ∨ r b a) (htrans : ∀ a b c, r a b → r b c → r a c)
    (himp : ∀ a b, r a b → s a b) (l : List Product) :
    List.Sorted s (l.insertionSort r) := by
  haveI : IsTotal Product r := ⟨htot⟩
  haveI : IsTrans Product r := ⟨htrans⟩
  exact (List.sorted_insertionSort r l).imp (fun h => himp _ _ h)

/-- Stability of insertion sort, filter form: a class of pairwise-equivalent
elements comes out in its original relative order. -/
theorem insertionSort_filter_stable {α : Type} (r : α → α → Prop) [DecidableRel r]
    (p : α → Bool) (l : List α)
    (hp : ∀ a b, p a = true → p b = true → r a b) :
    (l.insertionSort r).filter p = l.filter p := by
  have hpair : (l.filter p).Pairwise r := by
    apply List.pairwise_of_forall_mem_list
    intro a ha b hb
    exact hp a b (List.mem_filter.mp ha).2 (List.mem_filter.mp hb).2
  have hsub : List.Sublist (l.filter p) (l.insertionSort r) :=
    List.sublist_insertionSort hpair (List.filter_sublist l)
  have hsub2 : List.Sublist (l.filter p) ((l.insertionSort r).filter p) := by
    have h := hsub.filter p
    simpa [List.filter_filter, Bool.and_self] using h
  have hperm : ((l.insertionSort r).filter p).Perm (l.filter p) :=
    (List.perm_insertionSort r l).filter p
  exact (hsub2.eq_of_length hperm.length_eq.symm).symm

/-- C9: price-ascending sorting yields non-decreasing prices, price-descending
non-increasing; both are permutations of the input, and items of equal price
keep their original relative order (stability). -/
theorem sortProducts_price_sorted_and_stable
    (lc : String → String → ℤ) (l : List Product) :
    List.Sorted (fun a b : Product => a.price ≤ b.price)
        (sortProducts lc l ProductSort.priceAsc) ∧
    List.Sorted (fun a b : Product => b.price ≤ a.price)
        (sortProducts lc l ProductSort.priceDesc) ∧
    (∀ v : ℤ, (sortProducts lc l ProductSort.priceAsc).filter (fun a => a.price == v)
        = l.filter (fun a => a.price == v)) ∧
    (∀ v : ℤ, (sortProducts lc l ProductSort.priceDesc).filter (fun a => a.price == v)
        = l.filter (fun a => a.price == v)) ∧
    (sortProducts lc l ProductSort.priceAsc).Perm l ∧
    (sortProducts lc l ProductSort.priceDesc).Perm l := by
  refine ⟨?_, ?_, ?_, ?_, ?_, ?_⟩
  · exact sorted_insertionSort_of (fun a b => a.price - b.price ≤ 0)
      (fun a b => a.price ≤ b.price)
      (fun a b => by dsimp only; omega) (fun a b c hab hbc => by dsimp only at *; omega)
      (fun a b hab => by dsimp only at *; omega) l
  · exact sorted_insertionSort_of (fun a b => b.price - a.price ≤ 0)
      (fun a b => b.price ≤ a.price)
      (fun a b => by dsimp only; omega) (fun a b c hab hbc => by dsimp only at *; omega)
      (fun a b hab => by dsimp only at *; omega) l
  · intro v
    apply insertionSort_filter_stable
    intro a b ha hb
    have ha' : a.price = v := by simpa using ha
    have hb' : b.price = v := by simpa using hb
    omega
  · intro v
    apply insertionSort_filter_stable
    intro a b ha hb
    have ha' : a.price = v := by simpa using ha
    have hb' : b.price = v := by simpa using hb
    omega
  · exact List.perm_insertionSort _ l
  · exact List.perm_insertionSort _ l
